import Mathlib

/-!
# Verification of the interleaved deletion scheduler

Shallow embedding of `TwatCleaner/delete_twitter.py`: the rate-limit-aware
scheduler that alternates between deleting tweets and unliking likes,
persisting progress to per-class ledger files so a re-run is idempotent.

Time instants are modelled as integers (`Int`), matching the script's use of
`time.time()` wall-clock values; the external Twitter client is modelled by an
abstract `ApiResult` that `do_action` classifies exactly as the script's
`try/except` ladder does.
-/

namespace TwatCleaner

/-- `DELAY_BETWEEN_SAME_TYPE = 3` — minimum seconds between same-type
operations (line 37 of the script). -/
def DELAY_BETWEEN_SAME_TYPE : Int := 3

/-- The `'type'` field attached to each archive item: `'tweet'`, `'retweet'`
(tweets archive) or `'like'` (likes archive). -/
inductive ItemType where
  | tweet
  | retweet
  | like
deriving DecidableEq, Repr, Inhabited

/-- One work item as built by `load_archive`: a dict with keys
`id`, `text`, `date`, `type`. -/
structure Item where
  id : String
  text : String
  date : String
  type : ItemType
deriving DecidableEq, Repr, Inhabited

/-- The two action classes interleaved by `main`: the tweet-deletion stream
and the unlike stream. -/
inductive ActionClass where
  | tweet
  | like
deriving DecidableEq, Repr, Inhabited

/-- Result of the remote call inside `do_action`, before classification:
the call either succeeds, or raises one of the exceptions the script
catches.  `tooManyRequests` carries the parsed `x-rate-limit-reset` header
when present. -/
inductive ApiResult where
  | ok
  | notFound
  | forbidden
  | tooManyRequests (resetHeader : Option Int)
  | otherError
deriving DecidableEq, Repr, Inhabited

/-- The status strings returned by `do_action`:
`'done'`, `'rate_limit'`, `'error'`. -/
inductive Status where
  | done
  | rate_limit
  | error
deriving DecidableEq, Repr, Inhabited

/-- `do_action` (lines 115-143): classify the outcome of the remote call.
Success, `tweepy.NotFound` and `tweepy.Forbidden` all return `('done', None)`;
`tweepy.TooManyRequests` returns `('rate_limit', reset_time)` where
`reset_time` is the `x-rate-limit-reset` header if available; any other
exception returns `('error', None)`. -/
def do_action : ApiResult → Status × Option Int
  | .ok => (.done, none)
  | .notFound => (.done, none)
  | .forbidden => (.done, none)
  | .tooManyRequests h => (.rate_limit, h)
  | .otherError => (.error, none)

/-- `save_id` (lines 99-101): append one id as a new line of the progress
file.  The file is modelled as its list of lines. -/
def save_id (file : List String) (tweet_id : String) : List String :=
  file ++ [tweet_id]

/-- Python's `str.strip()`: drop whitespace from both ends, rendered
structurally over the character list. -/
def pyStrip (s : String) : String :=
  ⟨((s.data.dropWhile Char.isWhitespace).reverse.dropWhile Char.isWhitespace).reverse⟩

/-- Python's `str.split(sep)` for a one-character separator, rendered
structurally over the character list. -/
def splitChar (sep : Char) : List Char → List (List Char)
  | [] => [[]]
  | c :: cs =>
      let r := splitChar sep cs
      if c = sep then [] :: r
      else (c :: r.headD []) :: r.tail

/-- One line of `load_set` (lines 86-96): `strip` the line, drop blanks and
`#`-comments; if the line contains a `/` (whitelist URLs), take
`line.rstrip("/").split("/")[-1].split("?")[0]` — the last path segment
before any `?`.  The Python string methods (`strip`, `startswith`,
`rstrip`, `split`, `in`) are rendered over the character list. -/
def cleanseLine (line : String) : Option String :=
  let line := pyStrip line
  if line ≠ "" ∧ line.data.headD ' ' ≠ '#' then
    some (if line.data.contains '/' then
            ⟨((splitChar '/'
                ((line.data.reverse.dropWhile (· == '/')).reverse)).getLastD []).takeWhile
              (· ≠ '?')⟩
          else line)
  else none

/-- `load_set` (lines 86-96): the set of ids read from a progress or
whitelist file, modelled as the list of cleansed lines. -/
def load_set (file : List String) : List String :=
  file.filterMap cleanseLine

/-- The mutable state of `main`'s interleaving loop: the two queues, the two
cursors, the per-class last-action times, per-class rate-limit reset times,
the two progress files and the two counters. -/
structure SchedState where
  tweet_queue : List Item
  like_queue : List Item
  tweet_idx : Nat
  like_idx : Nat
  last_tweet_time : Int
  last_like_time : Int
  tweet_reset_time : Int
  like_reset_time : Int
  tweets_progress : List String
  likes_progress : List String
  tweets_deleted : Nat
  likes_deleted : Nat
deriving DecidableEq, Repr, Inhabited

/-- `tweet_rate_limited = now < tweet_reset_time` (line 218). -/
def tweet_rate_limited (s : SchedState) (now : Int) : Bool :=
  now < s.tweet_reset_time

/-- `like_rate_limited = now < like_reset_time` (line 219). -/
def like_rate_limited (s : SchedState) (now : Int) : Bool :=
  now < s.like_reset_time

/-- `can_tweet` (lines 222-224): queue not exhausted, not rate limited, and
the same-type spacing delay has elapsed. -/
def can_tweet (s : SchedState) (now : Int) : Bool :=
  decide (s.tweet_idx < s.tweet_queue.length) &&
  !(tweet_rate_limited s now) &&
  decide (now - s.last_tweet_time ≥ DELAY_BETWEEN_SAME_TYPE)

/-- `can_like` (lines 225-227). -/
def can_like (s : SchedState) (now : Int) : Bool :=
  decide (s.like_idx < s.like_queue.length) &&
  !(like_rate_limited s now) &&
  decide (now - s.last_like_time ≥ DELAY_BETWEEN_SAME_TYPE)

/-- Action selection (lines 229-240): if both classes are ready, pick the one
whose last action is older, ties going to tweets (`last_tweet_time <=
last_like_time`); else pick whichever single class is ready; else none. -/
def chooseAction (s : SchedState) (now : Int) : Option ActionClass :=
  if can_tweet s now ∧ can_like s now then
    if s.last_tweet_time ≤ s.last_like_time then some .tweet else some .like
  else if can_tweet s now then some .tweet
  else if can_like s now then some .like
  else none

/-- The primitive state mutations performed by the outcome branches of the
loop body (lines 291-305 for tweets, 315-329 for likes), kept as explicit
operations so that their source order is part of the model. -/
inductive MicroOp where
  | appendLedger (cls : ActionClass) (id : String)
  | incCounter (cls : ActionClass)
  | advanceCursor (cls : ActionClass)
  | setLastAttempt (cls : ActionClass) (t : Int)
  | setResetTime (cls : ActionClass) (t : Int)
deriving DecidableEq, Repr

/-- Apply one primitive mutation to the state. -/
def applyOp (s : SchedState) : MicroOp → SchedState
  | .appendLedger .tweet id => { s with tweets_progress := save_id s.tweets_progress id }
  | .appendLedger .like id => { s with likes_progress := save_id s.likes_progress id }
  | .incCounter .tweet => { s with tweets_deleted := s.tweets_deleted + 1 }
  | .incCounter .like => { s with likes_deleted := s.likes_deleted + 1 }
  | .advanceCursor .tweet => { s with tweet_idx := s.tweet_idx + 1 }
  | .advanceCursor .like => { s with like_idx := s.like_idx + 1 }
  | .setLastAttempt .tweet t => { s with last_tweet_time := t }
  | .setLastAttempt .like t => { s with last_like_time := t }
  | .setResetTime .tweet t => { s with tweet_reset_time := t }
  | .setResetTime .like t => { s with like_reset_time := t }

/-- The sequence of mutations the loop body performs for a given outcome, in
source order (lines 291-305 / 315-329):
* `'done'` — `save_id`, increment the deleted counter, advance the cursor,
  set the last-action time to the current time;
* `'rate_limit'` — `if reset_ts:` (lines 297/321) is a Python truthiness
  test, under which both `None` and the integer `0` are falsy: set the
  reset time to the reported reset timestamp only when it is present and
  non-zero, else to `now + 900` (the 15-minute default);
* `'error'` — advance the cursor (skip the item). -/
def outcomeOps (cls : ActionClass) (item : Item) (result : Status)
    (reset_ts : Option Int) (now2 : Int) : List MicroOp :=
  match result with
  | .done =>
      [.appendLedger cls item.id, .incCounter cls, .advanceCursor cls,
       .setLastAttempt cls now2]
  | .rate_limit =>
      match reset_ts with
      | some r =>
          if r ≠ 0 then [.setResetTime cls r]
          else [.setResetTime cls (now2 + 900)]
      | none => [.setResetTime cls (now2 + 900)]
  | .error => [.advanceCursor cls]

/-- Apply an outcome's mutations in order. -/
def applyOutcome (cls : ActionClass) (item : Item) (result : Status)
    (reset_ts : Option Int) (now2 : Int) (s : SchedState) : SchedState :=
  (outcomeOps cls item result reset_ts now2).foldl applyOp s

/-- One iteration of the loop as seen from outside: the wall-clock time `now`
sampled at the top of the iteration (line 215), what the remote service does
if an action is dispatched, and the wall-clock time `now2` sampled after the
remote call returns (`time.time()` on lines 295/299 and 319/323). -/
structure Tick where
  now : Int
  api : ApiResult
  now2 : Int
deriving DecidableEq, Repr, Inhabited

/-- A dispatched remote action: which class, which item, at what time, with
what classified outcome. -/
structure Event where
  cls : ActionClass
  item : Item
  now : Int
  result : Status
deriving DecidableEq, Repr, Inhabited

/-- The `while` condition (line 214): some queue is not exhausted. -/
def loopActive (s : SchedState) : Bool :=
  decide (s.tweet_idx < s.tweet_queue.length) || decide (s.like_idx < s.like_queue.length)

/-- One scheduling tick: if the loop is active and an action class is chosen,
dispatch the item at that class's cursor, classify the outcome with
`do_action`, and apply the outcome's mutations; otherwise (waiting branch,
lines 242-280) the state is unchanged and no remote action occurs. -/
def runStep (s : SchedState) (tk : Tick) : SchedState × Option Event :=
  if loopActive s then
    match chooseAction s tk.now with
    | some .tweet =>
        let item := s.tweet_queue.getD s.tweet_idx default
        let res := do_action tk.api
        (applyOutcome .tweet item res.1 res.2 tk.now2 s,
         some ⟨.tweet, item, tk.now, res.1⟩)
    | some .like =>
        let item := s.like_queue.getD s.like_idx default
        let res := do_action tk.api
        (applyOutcome .like item res.1 res.2 tk.now2 s,
         some ⟨.like, item, tk.now, res.1⟩)
    | none => (s, none)
  else (s, none)

/-- Run the loop over a sequence of ticks, collecting the dispatched
events in order. -/
def run (s : SchedState) : List Tick → SchedState × List Event
  | [] => (s, [])
  | tk :: tks =>
      let p := runStep s tk
      let q := run p.1 tks
      (q.1, p.2.toList ++ q.2)

/-- The number of seconds `time.sleep` is given in the "neither ready"
branch (lines 242-280), or `0` if no sleep happens:
* both classes remaining and both rate limited — wait until the earlier
  reset, plus one second (line 253);
* only tweets remaining and rate limited — wait until the tweet reset,
  plus one second (line 262);
* only likes remaining and rate limited — wait until the like reset,
  plus one second (line 270);
* otherwise — wait out the pacing delay, capped at 5 seconds (line 279). -/
def waitDuration (s : SchedState) (now : Int) : Int :=
  let tweets_remaining := decide (s.tweet_idx < s.tweet_queue.length)
  let likes_remaining := decide (s.like_idx < s.like_queue.length)
  if tweets_remaining && likes_remaining &&
      tweet_rate_limited s now && like_rate_limited s now then
    let wait_until := min s.tweet_reset_time s.like_reset_time
    let wait_secs := wait_until - now
    if wait_secs > 0 then wait_secs + 1 else 0
  else if tweets_remaining && !likes_remaining && tweet_rate_limited s now then
    let wait_secs := s.tweet_reset_time - now
    if wait_secs > 0 then wait_secs + 1 else 0
  else if likes_remaining && !tweets_remaining && like_rate_limited s now then
    let wait_secs := s.like_reset_time - now
    if wait_secs > 0 then wait_secs + 1 else 0
  else
    let wait := min
      (if tweets_remaining then DELAY_BETWEEN_SAME_TYPE - (now - s.last_tweet_time) else 9999)
      (if likes_remaining then DELAY_BETWEEN_SAME_TYPE - (now - s.last_like_time) else 9999)
    if wait > 0 then min wait 5 else 0

/-! ## Queue construction (lines 169-184) -/

/-- `datetime.min` as an abstract instant. -/
def datetime_min : Int := 0

/-- `parse_date` (lines 178-182): `strptime` the date string, returning
`datetime.min` when parsing fails.  The external `datetime.strptime` is
abstracted as a partial function from strings to instants. -/
def parse_date (strptime : String → Option Int) (d : String) : Int :=
  (strptime d).getD datetime_min

/-- The sort key of line 184:
`parse_date(t['date']) if t['date'] else datetime.min`.  In CPython the
key values are only partially ordered: a parsed date is tz-aware, the
`datetime.min` sentinel is tz-naive, and comparing across the two kinds
raises `TypeError` (see `pySortByDate`, which models that crash).  This
total integer key renders the order only on the single-kind branch, where
every comparison the program makes is defined. -/
def sortKey (strptime : String → Option Int) (t : Item) : Int :=
  if t.date ≠ "" then parse_date strptime t.date else datetime_min

/-- Whether an item carries a usable timestamp: a non-empty date string that
`strptime` parses. -/
def hasTs (strptime : String → Option Int) (t : Item) : Bool :=
  decide (t.date ≠ "") && (strptime t.date).isSome

/-- Lines 174 and 184: the tweet queue is the archive filtered against the
whitelist and the tweet ledger, then sorted oldest-first (Python `list.sort`
is a stable sort; `List.mergeSort` is its Lean counterpart).  This is the
arrangement of the non-crashing executions only: on archives mixing
parseable and unparseable dates line 184 raises an uncaught `TypeError`
and the program never builds this queue — `build_tweet_queue_checked`
models that crash (see C8). -/
def build_tweet_queue (strptime : String → Option Int) (all_tweets : List Item)
    (whitelist done_tweets : List String) : List Item :=
  (all_tweets.filter
      (fun t => !whitelist.contains t.id && !done_tweets.contains t.id)).mergeSort
    (fun a b => decide (sortKey strptime a ≤ sortKey strptime b))

/-- Line 175: the like queue is the likes archive filtered against the like
ledger (no whitelist, no sorting). -/
def build_like_queue (all_likes : List Item) (done_likes : List String) : List Item :=
  all_likes.filter (fun l => !done_likes.contains l.id)

/-- The state at the top of the interleaving loop (lines 169-211): queues
built against `load_set` of the progress files, cursors and counters at 0,
last-action times and reset times at 0.  This state exists only in
executions where line 184's sort did not raise (`build_tweet_queue_checked`
returned `.ok`, see C8); its tweet queue is that successful arrangement. -/
def initState (strptime : String → Option Int) (all_tweets all_likes : List Item)
    (whitelist tweets_file likes_file : List String) : SchedState where
  tweet_queue := build_tweet_queue strptime all_tweets whitelist (load_set tweets_file)
  like_queue := build_like_queue all_likes (load_set likes_file)
  tweet_idx := 0
  like_idx := 0
  last_tweet_time := 0
  last_like_time := 0
  tweet_reset_time := 0
  like_reset_time := 0
  tweets_progress := tweets_file
  likes_progress := likes_file
  tweets_deleted := 0
  likes_deleted := 0

/-- An id that survives the `load_set` line processing unchanged: no
surrounding whitespace, non-empty, not a `#` comment, no `/`.  Twitter ids
(decimal digit strings) are of this shape. -/
def plainId (id : String) : Prop :=
  pyStrip id = id ∧ id ≠ "" ∧ id.data.headD ' ' ≠ '#' ∧ ¬ id.data.contains '/'

/-! ## Basic lemmas about one step -/

theorem applyOutcome_tweet_done (item : Item) (r : Option Int) (now2 : Int)
    (s : SchedState) :
    applyOutcome .tweet item .done r now2 s =
      { s with tweets_progress := s.tweets_progress ++ [item.id],
               tweets_deleted := s.tweets_deleted + 1,
               tweet_idx := s.tweet_idx + 1,
               last_tweet_time := now2 } := rfl

theorem applyOutcome_like_done (item : Item) (r : Option Int) (now2 : Int)
    (s : SchedState) :
    applyOutcome .like item .done r now2 s =
      { s with likes_progress := s.likes_progress ++ [item.id],
               likes_deleted := s.likes_deleted + 1,
               like_idx := s.like_idx + 1,
               last_like_time := now2 } := rfl

/-- The value written into the class's reset time by a rate-limited
outcome: the reported instant when truthy (present and non-zero), else the
`now + 900` fallback. -/
def rlResetValue (reset_ts : Option Int) (now2 : Int) : Int :=
  match reset_ts with
  | some r => if r ≠ 0 then r else now2 + 900
  | none => now2 + 900

/-- A rate-limited outcome only writes the chosen class's reset time. -/
theorem applyOutcome_rl_eq (cls : ActionClass) (item : Item) (ro : Option Int)
    (now2 : Int) (s : SchedState) :
    applyOutcome cls item .rate_limit ro now2 s =
      applyOp s (.setResetTime cls (rlResetValue ro now2)) := by
  rcases ro with _ | r
  · rfl
  · show List.foldl applyOp s
        (if r ≠ 0 then [.setResetTime cls r]
         else [.setResetTime cls (now2 + 900)]) =
      applyOp s (.setResetTime cls (if r ≠ 0 then r else now2 + 900))
    by_cases hr : r = 0
    · rw [if_neg (by simp [hr]), if_neg (by simp [hr])]
      rfl
    · rw [if_pos hr, if_pos hr]
      rfl

theorem applyOutcome_tweet_rl (item : Item) (ro : Option Int) (now2 : Int)
    (s : SchedState) :
    applyOutcome .tweet item .rate_limit ro now2 s =
      { s with tweet_reset_time := rlResetValue ro now2 } := by
  rw [applyOutcome_rl_eq]
  rfl

theorem applyOutcome_like_rl (item : Item) (ro : Option Int) (now2 : Int)
    (s : SchedState) :
    applyOutcome .like item .rate_limit ro now2 s =
      { s with like_reset_time := rlResetValue ro now2 } := by
  rw [applyOutcome_rl_eq]
  rfl

theorem applyOutcome_tweet_error (item : Item) (r : Option Int) (now2 : Int)
    (s : SchedState) :
    applyOutcome .tweet item .error r now2 s =
      { s with tweet_idx := s.tweet_idx + 1 } := rfl

theorem applyOutcome_like_error (item : Item) (r : Option Int) (now2 : Int)
    (s : SchedState) :
    applyOutcome .like item .error r now2 s =
      { s with like_idx := s.like_idx + 1 } := rfl

theorem chooseAction_can_tweet {s : SchedState} {now : Int}
    (h : chooseAction s now = some .tweet) : can_tweet s now = true := by
  unfold chooseAction at h
  by_cases h1 : can_tweet s now = true ∧ can_like s now = true
  · exact h1.1
  · simp only [h1, if_false] at h
    by_cases h2 : can_tweet s now = true
    · exact h2
    · simp only [h2, if_false] at h
      by_cases h3 : can_like s now = true <;> simp [h3] at h

theorem chooseAction_can_like {s : SchedState} {now : Int}
    (h : chooseAction s now = some .like) : can_like s now = true := by
  unfold chooseAction at h
  by_cases h1 : can_tweet s now = true ∧ can_like s now = true
  · exact h1.2
  · simp only [h1, if_false] at h
    by_cases h2 : can_tweet s now = true
    · simp [h2] at h
    · simp only [h2, if_false] at h
      by_cases h3 : can_like s now = true
      · exact h3
      · simp [h3] at h

theorem can_tweet_idx_lt {s : SchedState} {now : Int} (h : can_tweet s now = true) :
    s.tweet_idx < s.tweet_queue.length := by
  simp only [can_tweet, Bool.and_eq_true, decide_eq_true_eq] at h
  exact h.1.1

theorem can_like_idx_lt {s : SchedState} {now : Int} (h : can_like s now = true) :
    s.like_idx < s.like_queue.length := by
  simp only [can_like, Bool.and_eq_true, decide_eq_true_eq] at h
  exact h.1.1

theorem can_tweet_not_limited {s : SchedState} {now : Int} (h : can_tweet s now = true) :
    s.tweet_reset_time ≤ now := by
  simp only [can_tweet, Bool.and_eq_true, Bool.not_eq_true', tweet_rate_limited,
    decide_eq_false_iff_not, not_lt] at h
  exact h.1.2

theorem can_like_not_limited {s : SchedState} {now : Int} (h : can_like s now = true) :
    s.like_reset_time ≤ now := by
  simp only [can_like, Bool.and_eq_true, Bool.not_eq_true', like_rate_limited,
    decide_eq_false_iff_not, not_lt] at h
  exact h.1.2

theorem can_tweet_spacing {s : SchedState} {now : Int} (h : can_tweet s now = true) :
    DELAY_BETWEEN_SAME_TYPE ≤ now - s.last_tweet_time := by
  simp only [can_tweet, Bool.and_eq_true, decide_eq_true_eq] at h
  exact h.2

theorem can_like_spacing {s : SchedState} {now : Int} (h : can_like s now = true) :
    DELAY_BETWEEN_SAME_TYPE ≤ now - s.last_like_time := by
  simp only [can_like, Bool.and_eq_true, decide_eq_true_eq] at h
  exact h.2

/-- Per-class access to the queue. -/
def queueOf : ActionClass → SchedState → List Item
  | .tweet, s => s.tweet_queue
  | .like, s => s.like_queue

/-- Per-class access to the cursor. -/
def idxOf : ActionClass → SchedState → Nat
  | .tweet, s => s.tweet_idx
  | .like, s => s.like_idx

/-- Per-class access to the progress file. -/
def ledgerOf : ActionClass → SchedState → List String
  | .tweet, s => s.tweets_progress
  | .like, s => s.likes_progress

/-- Per-class access to the last-action time. -/
def lastOf : ActionClass → SchedState → Int
  | .tweet, s => s.last_tweet_time
  | .like, s => s.last_like_time

/-- Per-class access to the rate-limit reset time. -/
def resetOf : ActionClass → SchedState → Int
  | .tweet, s => s.tweet_reset_time
  | .like, s => s.like_reset_time

theorem runStep_none {s : SchedState} {tk : Tick}
    (h : chooseAction s tk.now = none) : runStep s tk = (s, none) := by
  unfold runStep
  by_cases hl : loopActive s = true <;> simp [hl, h]

theorem runStep_notActive {s : SchedState} {tk : Tick}
    (h : loopActive s = false) : runStep s tk = (s, none) := by
  simp [runStep, h]

theorem loopActive_of_can_tweet {s : SchedState} {now : Int}
    (h : can_tweet s now = true) : loopActive s = true := by
  simp only [loopActive, Bool.or_eq_true, decide_eq_true_eq]
  exact Or.inl (can_tweet_idx_lt h)

theorem loopActive_of_can_like {s : SchedState} {now : Int}
    (h : can_like s now = true) : loopActive s = true := by
  simp only [loopActive, Bool.or_eq_true, decide_eq_true_eq]
  exact Or.inr (can_like_idx_lt h)

theorem runStep_tweet {s : SchedState} {tk : Tick}
    (h : chooseAction s tk.now = some .tweet) :
    runStep s tk =
      (applyOutcome .tweet (s.tweet_queue.getD s.tweet_idx default)
          (do_action tk.api).1 (do_action tk.api).2 tk.now2 s,
       some ⟨.tweet, s.tweet_queue.getD s.tweet_idx default, tk.now,
             (do_action tk.api).1⟩) := by
  have hl := loopActive_of_can_tweet (chooseAction_can_tweet h)
  simp [runStep, hl, h]

theorem runStep_like {s : SchedState} {tk : Tick}
    (h : chooseAction s tk.now = some .like) :
    runStep s tk =
      (applyOutcome .like (s.like_queue.getD s.like_idx default)
          (do_action tk.api).1 (do_action tk.api).2 tk.now2 s,
       some ⟨.like, s.like_queue.getD s.like_idx default, tk.now,
             (do_action tk.api).1⟩) := by
  have hl := loopActive_of_can_like (chooseAction_can_like h)
  simp [runStep, hl, h]

/-- Outcome application never touches the queues. -/
theorem applyOutcome_tweet_queue (cls : ActionClass) (item : Item) (result : Status)
    (r : Option Int) (now2 : Int) (s : SchedState) :
    (applyOutcome cls item result r now2 s).tweet_queue = s.tweet_queue := by
  cases result with
  | rate_limit => rw [applyOutcome_rl_eq]; cases cls <;> rfl
  | done => cases cls <;> rfl
  | error => cases cls <;> rfl

theorem applyOutcome_like_queue (cls : ActionClass) (item : Item) (result : Status)
    (r : Option Int) (now2 : Int) (s : SchedState) :
    (applyOutcome cls item result r now2 s).like_queue = s.like_queue := by
  cases result with
  | rate_limit => rw [applyOutcome_rl_eq]; cases cls <;> rfl
  | done => cases cls <;> rfl
  | error => cases cls <;> rfl

/-- Outcome application never decreases a cursor. -/
theorem applyOutcome_tweet_idx_le (cls : ActionClass) (item : Item) (result : Status)
    (r : Option Int) (now2 : Int) (s : SchedState) :
    s.tweet_idx ≤ (applyOutcome cls item result r now2 s).tweet_idx := by
  cases result with
  | rate_limit => rw [applyOutcome_rl_eq]; cases cls <;> exact le_refl _
  | done => cases cls <;> simp [applyOutcome, outcomeOps, applyOp, Nat.le_succ]
  | error => cases cls <;> simp [applyOutcome, outcomeOps, applyOp, Nat.le_succ]

theorem applyOutcome_like_idx_le (cls : ActionClass) (item : Item) (result : Status)
    (r : Option Int) (now2 : Int) (s : SchedState) :
    s.like_idx ≤ (applyOutcome cls item result r now2 s).like_idx := by
  cases result with
  | rate_limit => rw [applyOutcome_rl_eq]; cases cls <;> exact le_refl _
  | done => cases cls <;> simp [applyOutcome, outcomeOps, applyOp, Nat.le_succ]
  | error => cases cls <;> simp [applyOutcome, outcomeOps, applyOp, Nat.le_succ]

theorem runStep_fst_tweet_queue (s : SchedState) (tk : Tick) :
    ((runStep s tk).1).tweet_queue = s.tweet_queue := by
  rcases h : chooseAction s tk.now with _ | cls
  · rw [runStep_none h]
  · cases cls
    · rw [runStep_tweet h]; exact applyOutcome_tweet_queue ..
    · rw [runStep_like h]; exact applyOutcome_tweet_queue ..

theorem runStep_fst_like_queue (s : SchedState) (tk : Tick) :
    ((runStep s tk).1).like_queue = s.like_queue := by
  rcases h : chooseAction s tk.now with _ | cls
  · rw [runStep_none h]
  · cases cls
    · rw [runStep_tweet h]; exact applyOutcome_like_queue ..
    · rw [runStep_like h]; exact applyOutcome_like_queue ..

theorem runStep_fst_tweet_idx_le (s : SchedState) (tk : Tick) :
    s.tweet_idx ≤ ((runStep s tk).1).tweet_idx := by
  rcases h : chooseAction s tk.now with _ | cls
  · rw [runStep_none h]
  · cases cls
    · rw [runStep_tweet h]; exact applyOutcome_tweet_idx_le ..
    · rw [runStep_like h]; exact applyOutcome_tweet_idx_le ..

theorem runStep_fst_like_idx_le (s : SchedState) (tk : Tick) :
    s.like_idx ≤ ((runStep s tk).1).like_idx := by
  rcases h : chooseAction s tk.now with _ | cls
  · rw [runStep_none h]
  · cases cls
    · rw [runStep_tweet h]; exact applyOutcome_like_idx_le ..
    · rw [runStep_like h]; exact applyOutcome_like_idx_le ..

/-- The queues never change over a whole run. -/
theorem run_fst_tweet_queue (tks : List Tick) (s : SchedState) :
    ((run s tks).1).tweet_queue = s.tweet_queue := by
  induction tks generalizing s with
  | nil => rfl
  | cons tk tks ih => rw [run]; rw [ih ((runStep s tk).1), runStep_fst_tweet_queue]

theorem run_fst_like_queue (tks : List Tick) (s : SchedState) :
    ((run s tks).1).like_queue = s.like_queue := by
  induction tks generalizing s with
  | nil => rfl
  | cons tk tks ih => rw [run]; rw [ih ((runStep s tk).1), runStep_fst_like_queue]

/-- The cursors never decrease over a whole run. -/
theorem run_fst_tweet_idx_le (tks : List Tick) (s : SchedState) :
    s.tweet_idx ≤ ((run s tks).1).tweet_idx := by
  induction tks generalizing s with
  | nil => exact le_refl _
  | cons tk tks ih =>
      rw [run]
      exact le_trans (runStep_fst_tweet_idx_le s tk) (ih ((runStep s tk).1))

theorem run_fst_like_idx_le (tks : List Tick) (s : SchedState) :
    s.like_idx ≤ ((run s tks).1).like_idx := by
  induction tks generalizing s with
  | nil => exact le_refl _
  | cons tk tks ih =>
      rw [run]
      exact le_trans (runStep_fst_like_idx_le s tk) (ih ((runStep s tk).1))

theorem getD_mem_of_lt {α : Type} {l : List α} {n : Nat} {d : α}
    (h : n < l.length) : l.getD n d ∈ l := by
  rw [List.getD_eq_getElem?_getD, List.getElem?_eq_getElem h, Option.getD_some]
  exact List.getElem_mem h

/-- Anatomy of a dispatching step: the chosen class was chosen by
`chooseAction`, the dispatched item is the one at that class's cursor, the
recorded time is the tick's decision time, the outcome is `do_action`'s
classification, and the new state applies that outcome. -/
theorem runStep_some {s : SchedState} {tk : Tick} {s' : SchedState} {ev : Event}
    (h : runStep s tk = (s', some ev)) :
    chooseAction s tk.now = some ev.cls ∧
    ev.item = (queueOf ev.cls s).getD (idxOf ev.cls s) default ∧
    ev.now = tk.now ∧
    ev.result = (do_action tk.api).1 ∧
    s' = applyOutcome ev.cls ev.item (do_action tk.api).1 (do_action tk.api).2
           tk.now2 s := by
  rcases hc : chooseAction s tk.now with _ | cls
  · rw [runStep_none hc] at h
    simp at h
  · cases cls
    · rw [runStep_tweet hc] at h
      injection h with h1 h2
      injection h2 with h3
      subst h1; subst h3
      exact ⟨rfl, rfl, rfl, rfl, rfl⟩
    · rw [runStep_like hc] at h
      injection h with h1 h2
      injection h2 with h3
      subst h1; subst h3
      exact ⟨rfl, rfl, rfl, rfl, rfl⟩

/-- Every dispatched item is drawn from the dispatching class's queue, at a
cursor position at or beyond the starting cursor. -/
theorem run_event_pos (tks : List Tick) (s : SchedState) :
    ∀ ev ∈ (run s tks).2, ∃ i, idxOf ev.cls s ≤ i ∧
      i < (queueOf ev.cls s).length ∧
      ev.item = (queueOf ev.cls s).getD i default := by
  induction tks generalizing s with
  | nil => intro ev h; simp [run] at h
  | cons tk tks ih =>
      intro ev hev
      rw [run] at hev
      rcases List.mem_append.1 hev with h | h
      · rcases hstep : (runStep s tk).2 with _ | ev0
        · rw [hstep] at h; simp at h
        · rw [hstep] at h
          simp only [Option.toList_some, List.mem_singleton] at h
          subst h
          have hs : runStep s tk = ((runStep s tk).1, some ev) := by
            rw [← hstep]
          obtain ⟨hc, hitem, -, -, -⟩ := runStep_some hs
          refine ⟨idxOf ev.cls s, le_refl _, ?_, hitem⟩
          cases hcls : ev.cls
          · rw [hcls] at hc
            exact can_tweet_idx_lt (chooseAction_can_tweet hc)
          · rw [hcls] at hc
            exact can_like_idx_lt (chooseAction_can_like hc)
      · obtain ⟨i, hi1, hi2, hi3⟩ := ih ((runStep s tk).1) ev h
        rcases hcl : ev.cls with _ | _
        · rw [hcl] at hi1 hi2 hi3
          simp only [queueOf, idxOf] at hi1 hi2 hi3 ⊢
          rw [runStep_fst_tweet_queue] at hi2 hi3
          exact ⟨i, le_trans (runStep_fst_tweet_idx_le s tk) hi1, hi2, hi3⟩
        · rw [hcl] at hi1 hi2 hi3
          simp only [queueOf, idxOf] at hi1 hi2 hi3 ⊢
          rw [runStep_fst_like_queue] at hi2 hi3
          exact ⟨i, le_trans (runStep_fst_like_idx_le s tk) hi1, hi2, hi3⟩

/-- Every dispatched item belongs to its class's (startup) queue. -/
theorem run_event_mem (tks : List Tick) (s : SchedState) :
    ∀ ev ∈ (run s tks).2, ev.item ∈ queueOf ev.cls s := by
  intro ev hev
  obtain ⟨i, -, hlen, hitem⟩ := run_event_pos tks s ev hev
  rw [hitem]
  exact getD_mem_of_lt hlen

/-- Running over concatenated ticks is running over each part in turn. -/
theorem run_append (tks1 tks2 : List Tick) (s : SchedState) :
    run s (tks1 ++ tks2) =
      ((run (run s tks1).1 tks2).1,
       (run s tks1).2 ++ (run (run s tks1).1 tks2).2) := by
  induction tks1 generalizing s with
  | nil => simp [run]
  | cons tk tks ih =>
      rw [List.cons_append, run, run, ih]
      simp [List.append_assoc]

/-! ## Concrete sample data for instantiations -/

def sampleTweetA : Item := ⟨"101", "a", "", .tweet⟩

def sampleTweetB : Item := ⟨"102", "b", "", .tweet⟩

def sampleLikeC : Item := ⟨"201", "c", "", .like⟩

/-- A fresh loop state: two tweets and one like queued, nothing done yet. -/
def sampleState : SchedState :=
  ⟨[sampleTweetA, sampleTweetB], [sampleLikeC], 0, 0, 0, 0, 0, 0, [], [], 0, 0⟩

/-- `sampleState` with both classes throttled until instant 1000. -/
def throttledState : SchedState :=
  { sampleState with tweet_reset_time := 1000, like_reset_time := 1000 }

/-! ## C1 — idempotent resumption -/

/-- A plain id survives `load_set`'s line cleansing unchanged. -/
theorem cleanseLine_plain {id : String} (h : plainId id) :
    cleanseLine id = some id := by
  obtain ⟨h1, h2, h3, h4⟩ := h
  unfold cleanseLine
  rw [h1, if_pos ⟨h2, h3⟩, if_neg h4]

/-- A plain id written to a progress file is recovered by `load_set`. -/
theorem mem_load_set_of_plain {id : String} {file : List String}
    (h : plainId id) (hm : id ∈ file) : id ∈ load_set file :=
  List.mem_filterMap.2 ⟨id, hm, cleanseLine_plain h⟩

/-- Members of the built tweet queue come from the archive and are excluded
from both the whitelist and the tweet ledger. -/
theorem mem_build_tweet_queue {strptime : String → Option Int}
    {all_tweets : List Item} {whitelist dones : List String} {t : Item}
    (h : t ∈ build_tweet_queue strptime all_tweets whitelist dones) :
    t ∈ all_tweets ∧ t.id ∉ whitelist ∧ t.id ∉ dones := by
  unfold build_tweet_queue at h
  have h2 := (List.mergeSort_perm _ _).mem_iff.1 h
  have h3 := List.mem_filter.1 h2
  obtain ⟨hmem, hp⟩ := h3
  simp only [Bool.and_eq_true, Bool.not_eq_true', List.contains,
    List.elem_eq_mem, decide_eq_false_iff_not] at hp
  exact ⟨hmem, hp.1, hp.2⟩

/-- Members of the built like queue come from the archive and are excluded
from the like ledger. -/
theorem mem_build_like_queue {all_likes : List Item} {dones : List String}
    {l : Item} (h : l ∈ build_like_queue all_likes dones) :
    l ∈ all_likes ∧ l.id ∉ dones := by
  have h3 := List.mem_filter.1 h
  obtain ⟨hmem, hp⟩ := h3
  simp only [Bool.not_eq_true', List.contains, List.elem_eq_mem,
    decide_eq_false_iff_not] at hp
  exact ⟨hmem, hp⟩

/-- C1: the pending queues are built excluding every id already present in
the per-class ledger: after filtering no queued item carries an id in its
class's loaded ledger, every dispatch of any run from the startup state is
of an item whose id is absent from the startup ledger, and — for plain
(digit-string) ids — an id recorded in the ledger at the end of one run is
never dispatched by a second run started on the resulting progress files,
so the second run processes only items absent from the ledger. -/
theorem C1_idempotent_resumption (strptime : String → Option Int)
    (all_tweets all_likes : List Item)
    (whitelist tweets_file likes_file : List String) (tks : List Tick) :
    (∀ t ∈ (initState strptime all_tweets all_likes whitelist tweets_file
        likes_file).tweet_queue, t.id ∉ load_set tweets_file) ∧
    (∀ l ∈ (initState strptime all_tweets all_likes whitelist tweets_file
        likes_file).like_queue, l.id ∉ load_set likes_file) ∧
    (∀ ev ∈ (run (initState strptime all_tweets all_likes whitelist tweets_file
        likes_file) tks).2,
      (ev.cls = .tweet → ev.item.id ∉ load_set tweets_file) ∧
      (ev.cls = .like → ev.item.id ∉ load_set likes_file)) ∧
    (∀ id : String, plainId id →
      id ∈ ((run (initState strptime all_tweets all_likes whitelist tweets_file
        likes_file) tks).1).tweets_progress →
      ∀ (tks2 : List Tick),
        ∀ ev ∈ (run (initState strptime all_tweets all_likes whitelist
            (((run (initState strptime all_tweets all_likes whitelist tweets_file
                likes_file) tks).1).tweets_progress)
            (((run (initState strptime all_tweets all_likes whitelist tweets_file
                likes_file) tks).1).likes_progress)) tks2).2,
          ev.cls = .tweet → ev.item.id ≠ id) := by
  have hqt : ∀ t ∈ (initState strptime all_tweets all_likes whitelist tweets_file
      likes_file).tweet_queue, t.id ∉ load_set tweets_file := by
    intro t ht
    exact (mem_build_tweet_queue ht).2.2
  have hql : ∀ l ∈ (initState strptime all_tweets all_likes whitelist tweets_file
      likes_file).like_queue, l.id ∉ load_set likes_file := by
    intro l hl
    exact (mem_build_like_queue hl).2
  refine ⟨hqt, hql, ?_, ?_⟩
  · intro ev hev
    have hmem := run_event_mem tks _ ev hev
    constructor
    · intro hcl
      rw [hcl] at hmem
      exact hqt ev.item hmem
    · intro hcl
      rw [hcl] at hmem
      exact hql ev.item hmem
  · intro id hplain hid tks2 ev hev hcl
    intro heq
    have hmem := run_event_mem tks2 _ ev hev
    rw [hcl] at hmem
    have hnot := (mem_build_tweet_queue hmem).2.2
    rw [heq] at hnot
    exact hnot (mem_load_set_of_plain hplain hid)

/-- C1 witness: with archive `[A, B]` and a tweet ledger already containing
`A`'s id, the built queue contains `B` and (by the theorem) `B`'s id is not
in the loaded ledger. -/
theorem C1_idempotent_resumption_witness : sampleTweetB.id ∉ load_set ["101"] :=
  (C1_idempotent_resumption (fun _ => none) [sampleTweetA, sampleTweetB]
      [sampleLikeC] [] ["101"] [] []).1 sampleTweetB
    ((List.mergeSort_perm _ _).mem_iff.2 (by decide))

/-! ## C2 — rate-limited outcome transition -/

/-- C2, counterexample: the claim says a rate-limited dispatch sets the
class's `lastAttemptAt` to now.  Here a tweet dispatch at `now = 10`
(post-call time 11) is rate limited, the reset time is set to the reported
instant 100 and the cursor stays put — but `last_tweet_time` remains `0`,
which is neither 10 nor 11, so the `lastAttemptAt = now` conjunct is false
on the code. -/
theorem C2_counterexample :
    runStep sampleState ⟨10, .tooManyRequests (some 100), 11⟩ =
      ({ sampleState with tweet_reset_time := 100 },
       some ⟨.tweet, sampleTweetA, 10, .rate_limit⟩) ∧
    ({ sampleState with tweet_reset_time := 100 } : SchedState).last_tweet_time = 0 ∧
    ¬ ((0 : Int) = 10 ∨ (0 : Int) = 11) :=
  ⟨by decide, rfl, by decide⟩

/-- Field-level description of a rate-limited outcome application: only the
class's reset time changes, to the truthy reported instant or the `now +
900` fallback. -/
theorem applyOutcome_rl_fields (cls : ActionClass) (item : Item) (ro : Option Int)
    (now2 : Int) (s : SchedState) :
    idxOf cls (applyOutcome cls item .rate_limit ro now2 s) = idxOf cls s ∧
    lastOf cls (applyOutcome cls item .rate_limit ro now2 s) = lastOf cls s ∧
    resetOf cls (applyOutcome cls item .rate_limit ro now2 s) =
      rlResetValue ro now2 ∧
    ledgerOf cls (applyOutcome cls item .rate_limit ro now2 s) = ledgerOf cls s := by
  rw [applyOutcome_rl_eq]
  cases cls <;> exact ⟨rfl, rfl, rfl, rfl⟩

/-- C2, amended: for every dispatch whose executor outcome is rate-limited,
the chosen class's queue cursor is not advanced (the same item is retried
later), its `throttledUntil` is set to the executor-reported reset instant
when one is reported and truthy (`if reset_ts:` — a reported `0` is falsy
and takes the fallback) and otherwise to now plus 900 seconds, its ledger
is untouched — and its `lastAttemptAt` is left unchanged (the code updates
the last-attempt time only on a `'done'` outcome, not on a rate limit). -/
theorem C2_rate_limited_transition (s : SchedState) (tk : Tick) (s' : SchedState)
    (ev : Event) (h : runStep s tk = (s', some ev)) (hr : ev.result = .rate_limit) :
    idxOf ev.cls s' = idxOf ev.cls s ∧
    lastOf ev.cls s' = lastOf ev.cls s ∧
    (∀ r : Int, tk.api = .tooManyRequests (some r) → r ≠ 0 →
      resetOf ev.cls s' = r) ∧
    (∀ r : Int, tk.api = .tooManyRequests (some r) → r = 0 →
      resetOf ev.cls s' = tk.now2 + 900) ∧
    (tk.api = .tooManyRequests none → resetOf ev.cls s' = tk.now2 + 900) ∧
    ledgerOf ev.cls s' = ledgerOf ev.cls s := by
  obtain ⟨-, -, -, hres, hs'⟩ := runStep_some h
  have hda : (do_action tk.api).1 = .rate_limit := hres.symm.trans hr
  obtain ⟨ro, hapi⟩ : ∃ ro, tk.api = .tooManyRequests ro := by
    cases hx : tk.api with
    | tooManyRequests ro => exact ⟨ro, rfl⟩
    | ok => rw [hx] at hda; simp [do_action] at hda
    | notFound => rw [hx] at hda; simp [do_action] at hda
    | forbidden => rw [hx] at hda; simp [do_action] at hda
    | otherError => rw [hx] at hda; simp [do_action] at hda
  rw [hapi] at hs'
  obtain ⟨h1, h2, h3, h4⟩ := applyOutcome_rl_fields ev.cls ev.item ro tk.now2 s
  subst hs'
  refine ⟨h1, h2, ?_, ?_, ?_, h4⟩
  · intro r' hr' hr0
    rw [hapi] at hr'
    injection hr' with h'
    rw [h'] at h3
    rw [h']
    refine h3.trans ?_
    show (if r' ≠ 0 then r' else tk.now2 + 900) = r'
    rw [if_pos hr0]
  · intro r' hr' hr0
    rw [hapi] at hr'
    injection hr' with h'
    rw [h'] at h3
    rw [h']
    subst hr0
    exact h3.trans rfl
  · intro hr'
    rw [hapi] at hr'
    injection hr' with h'
    rw [h'] at h3
    rw [h']
    exact h3.trans rfl

/-- C2 witness: the amended transition instantiated on the concrete
rate-limited dispatch of `C2_counterexample` (truthy reported reset 100). -/
theorem C2_rate_limited_transition_witness :
    idxOf ActionClass.tweet ({ sampleState with tweet_reset_time := 100 }) =
      idxOf ActionClass.tweet sampleState ∧
    lastOf ActionClass.tweet ({ sampleState with tweet_reset_time := 100 }) =
      lastOf ActionClass.tweet sampleState ∧
    (∀ r : Int, ApiResult.tooManyRequests (some 100) = .tooManyRequests (some r) →
      r ≠ 0 →
      resetOf ActionClass.tweet ({ sampleState with tweet_reset_time := 100 }) = r) ∧
    (∀ r : Int, ApiResult.tooManyRequests (some 100) = .tooManyRequests (some r) →
      r = 0 →
      resetOf ActionClass.tweet ({ sampleState with tweet_reset_time := 100 }) =
        11 + 900) ∧
    (ApiResult.tooManyRequests (some 100) = .tooManyRequests none →
      resetOf ActionClass.tweet ({ sampleState with tweet_reset_time := 100 }) =
        11 + 900) ∧
    ledgerOf ActionClass.tweet ({ sampleState with tweet_reset_time := 100 }) =
      ledgerOf ActionClass.tweet sampleState :=
  C2_rate_limited_transition sampleState ⟨10, .tooManyRequests (some 100), 11⟩
    ({ sampleState with tweet_reset_time := 100 })
    ⟨.tweet, sampleTweetA, 10, .rate_limit⟩ (by decide) rfl

/-! ## C3 — throttle correctness -/

/-- Clock sanity along a tick sequence: each decision time is at least the
previous post-call time, and each post-call time is at least its decision
time. -/
def ticksMono : Int → List Tick → Bool
  | _, [] => true
  | lb, tk :: tks =>
      decide (lb ≤ tk.now) && decide (tk.now ≤ tk.now2) && ticksMono tk.now2 tks

/-- A like-class outcome never touches the tweet reset time. -/
theorem applyOutcome_like_tweet_reset (item : Item) (result : Status)
    (r : Option Int) (now2 : Int) (s : SchedState) :
    (applyOutcome .like item result r now2 s).tweet_reset_time =
      s.tweet_reset_time := by
  cases result with
  | rate_limit => rw [applyOutcome_rl_eq]; rfl
  | done => rfl
  | error => rfl

/-- A tweet-class outcome never touches the like reset time. -/
theorem applyOutcome_tweet_like_reset (item : Item) (result : Status)
    (r : Option Int) (now2 : Int) (s : SchedState) :
    (applyOutcome .tweet item result r now2 s).like_reset_time =
      s.like_reset_time := by
  cases result with
  | rate_limit => rw [applyOutcome_rl_eq]; rfl
  | done => rfl
  | error => rfl

/-- Once `t` bounds the tweet reset time (or the clock has passed `t`),
every later tweet dispatch happens at a time `≥ t`. -/
theorem tweet_throttle_lb (tks : List Tick) (s : SchedState) (lb t : Int)
    (hinv : t ≤ s.tweet_reset_time ∨ t ≤ lb)
    (hmono : ticksMono lb tks = true) :
    ∀ ev ∈ (run s tks).2, ev.cls = .tweet → t ≤ ev.now := by
  induction tks generalizing s lb with
  | nil => intro ev h; simp [run] at h
  | cons tk tks ih =>
      simp only [ticksMono, Bool.and_eq_true, decide_eq_true_eq] at hmono
      obtain ⟨⟨hlb, hnn2⟩, hmono'⟩ := hmono
      intro ev hev hcls
      rw [run] at hev
      rcases List.mem_append.1 hev with hh | hh
      · rcases hstep : (runStep s tk).2 with _ | ev0
        · rw [hstep] at hh; simp at hh
        · rw [hstep] at hh
          simp only [Option.toList_some, List.mem_singleton] at hh
          subst hh
          have hs : runStep s tk = ((runStep s tk).1, some ev) := by rw [← hstep]
          obtain ⟨hc, -, hnow, -, -⟩ := runStep_some hs
          rw [hcls] at hc
          have hres := can_tweet_not_limited (chooseAction_can_tweet hc)
          rw [hnow]
          rcases hinv with h | h
          · exact le_trans h hres
          · exact le_trans h hlb
      · refine ih ((runStep s tk).1) tk.now2 ?_ hmono' ev hh hcls
        rcases hinv with h | h
        · rcases hc : chooseAction s tk.now with _ | cls
          · rw [runStep_none hc]
            exact Or.inl h
          · cases cls
            · have hres := can_tweet_not_limited (chooseAction_can_tweet hc)
              exact Or.inr (le_trans h (le_trans hres hnn2))
            · rw [runStep_like hc]
              exact Or.inl (by rwa [applyOutcome_like_tweet_reset])
        · exact Or.inr (le_trans h (le_trans hlb hnn2))

/-- C3: once a tweet dispatch is answered rate-limited with reported reset
instant `t`, no tweet dispatch of the rest of the run (under a sane clock)
happens at a time before `t`; the like class's eligibility does not depend
on the tweet throttle at all; and at any state whose tweet class is
throttled, a tick at which the like class is eligible dispatches the like
at its cursor.  The hypothesis `t ≠ 0` says the reset instant is actually
used: at lines 297/321 Python treats a reported `0` as falsy and discards
it for the `now + 900` fallback, so a zero report installs no throttle at
instant `t`. -/
theorem C3_throttle_correctness (s : SchedState) (tk : Tick) (s1 : SchedState)
    (ev : Event) (t : Int) (tks : List Tick)
    (h : runStep s tk = (s1, some ev)) (hcl : ev.cls = .tweet)
    (hapi : tk.api = .tooManyRequests (some t)) (ht : t ≠ 0)
    (hmono : ticksMono tk.now2 tks = true) :
    (∀ ev' ∈ (run s1 tks).2, ev'.cls = .tweet → t ≤ ev'.now) ∧
    (∀ (x : SchedState) (r n : Int),
        can_like { x with tweet_reset_time := r } n = can_like x n) ∧
    (∀ (x : SchedState) (tk' : Tick),
        tweet_rate_limited x tk'.now = true → can_like x tk'.now = true →
        runStep x tk' =
          (applyOutcome .like (x.like_queue.getD x.like_idx default)
             (do_action tk'.api).1 (do_action tk'.api).2 tk'.now2 x,
           some ⟨.like, x.like_queue.getD x.like_idx default, tk'.now,
                 (do_action tk'.api).1⟩)) := by
  obtain ⟨-, -, -, -, hs1⟩ := runStep_some h
  rw [hapi, hcl] at hs1
  refine ⟨?_, ?_, ?_⟩
  · refine tweet_throttle_lb tks s1 tk.now2 t ?_ hmono
    left
    rw [hs1]
    show t ≤ (applyOutcome .tweet ev.item .rate_limit (some t) tk.now2 s).tweet_reset_time
    rw [applyOutcome_tweet_rl]
    show t ≤ if t ≠ 0 then t else tk.now2 + 900
    rw [if_pos ht]
  · intro x r n
    rfl
  · intro x tk' hlim hcanl
    have hcant : can_tweet x tk'.now = false := by
      simp [can_tweet, hlim]
    have hchoose : chooseAction x tk'.now = some .like := by
      unfold chooseAction
      rw [if_neg, if_neg, if_pos hcanl]
      · rw [hcant]
        simp
      · intro hand
        rw [hcant] at hand
        cases hand.1
    exact runStep_like hchoose

/-- C3 witness: the concrete rate-limited tweet dispatch of
`C2_counterexample`, followed by no further ticks. -/
theorem C3_throttle_correctness_witness :
    (∀ ev' ∈ (run ({ sampleState with tweet_reset_time := 100 }) []).2,
        ev'.cls = .tweet → (100 : Int) ≤ ev'.now) ∧
    (∀ (x : SchedState) (r n : Int),
        can_like { x with tweet_reset_time := r } n = can_like x n) ∧
    (∀ (x : SchedState) (tk' : Tick),
        tweet_rate_limited x tk'.now = true → can_like x tk'.now = true →
        runStep x tk' =
          (applyOutcome .like (x.like_queue.getD x.like_idx default)
             (do_action tk'.api).1 (do_action tk'.api).2 tk'.now2 x,
           some ⟨.like, x.like_queue.getD x.like_idx default, tk'.now,
                 (do_action tk'.api).1⟩)) :=
  C3_throttle_correctness sampleState ⟨10, .tooManyRequests (some 100), 11⟩
    ({ sampleState with tweet_reset_time := 100 })
    ⟨.tweet, sampleTweetA, 10, .rate_limit⟩ 100 [] (by decide) rfl rfl
    (by decide) rfl

/-! ## C8 — within-class ordering -/

/-- An item without a usable timestamp sorts with key `datetime.min`. -/
theorem sortKey_of_noTs {strptime : String → Option Int} {t : Item}
    (h : hasTs strptime t = false) : sortKey strptime t = datetime_min := by
  unfold sortKey
  by_cases hd : t.date = ""
  · rw [if_neg (fun hh => hh hd)]
  · rw [if_pos hd]
    unfold parse_date
    cases hst : strptime t.date with
    | none => rfl
    | some v =>
        exfalso
        unfold hasTs at h
        rw [hst] at h
        simp [hd] at h

/-- An item with a parseable, non-empty date sorts by its parsed value. -/
theorem sortKey_of_parsed {strptime : String → Option Int} {t : Item} {v : Int}
    (hd : t.date ≠ "") (hp : strptime t.date = some v) :
    sortKey strptime t = v := by
  unfold sortKey parse_date
  rw [if_pos hd, hp]
  rfl

/-- The built tweet queue is sorted by the date key (oldest first). -/
theorem mergeSort_key_sorted (strptime : String → Option Int) (l : List Item) :
    (l.mergeSort
        (fun a b => decide (sortKey strptime a ≤ sortKey strptime b))).Pairwise
      (fun a b => sortKey strptime a ≤ sortKey strptime b) := by
  have htrans : ∀ a b c : Item,
      decide (sortKey strptime a ≤ sortKey strptime b) = true →
      decide (sortKey strptime b ≤ sortKey strptime c) = true →
      decide (sortKey strptime a ≤ sortKey strptime c) = true := by
    intro a b c hab hbc
    simp only [decide_eq_true_eq] at hab hbc ⊢
    exact le_trans hab hbc
  have htotal : ∀ a b : Item,
      (decide (sortKey strptime a ≤ sortKey strptime b) ||
       decide (sortKey strptime b ≤ sortKey strptime a)) = true := by
    intro a b
    simp only [Bool.or_eq_true, decide_eq_true_eq]
    exact le_total _ _
  have h := List.sorted_mergeSort htrans htotal l
  exact h.imp (by intro a b hab; simpa using hab)

/-- Stability: the sub-sequence of items without usable timestamps is left
in its original (input) order by the sort. -/
theorem mergeSort_key_stable (strptime : String → Option Int) (l : List Item) :
    (l.mergeSort
        (fun a b => decide (sortKey strptime a ≤ sortKey strptime b))).filter
        (fun t => !(hasTs strptime t)) =
      l.filter (fun t => !(hasTs strptime t)) := by
  have htrans : ∀ a b c : Item,
      decide (sortKey strptime a ≤ sortKey strptime b) = true →
      decide (sortKey strptime b ≤ sortKey strptime c) = true →
      decide (sortKey strptime a ≤ sortKey strptime c) = true := by
    intro a b c hab hbc
    simp only [decide_eq_true_eq] at hab hbc ⊢
    exact le_trans hab hbc
  have htotal : ∀ a b : Item,
      (decide (sortKey strptime a ≤ sortKey strptime b) ||
       decide (sortKey strptime b ≤ sortKey strptime a)) = true := by
    intro a b
    simp only [Bool.or_eq_true, decide_eq_true_eq]
    exact le_total _ _
  have hc : (l.filter (fun t => !(hasTs strptime t))).Pairwise
      (fun a b => decide (sortKey strptime a ≤ sortKey strptime b) = true) := by
    apply List.pairwise_of_forall_mem_list
    intro a ha b hb
    have ha' := (List.mem_filter.1 ha).2
    have hb' := (List.mem_filter.1 hb).2
    simp only [Bool.not_eq_true'] at ha' hb'
    simp [sortKey_of_noTs ha', sortKey_of_noTs hb']
  have hsub := List.sublist_mergeSort htrans htotal hc (List.filter_sublist _)
  have hall : ∀ a ∈ l.filter (fun t => !(hasTs strptime t)),
      (!(hasTs strptime a)) = true := by
    intro a ha
    exact (List.mem_filter.1 ha).2
  have hsub2 := (List.filter_eq_self.2 hall) ▸ hsub.filter (fun t => !(hasTs strptime t))
  have hperm := (List.mergeSort_perm l
      (fun a b => decide (sortKey strptime a ≤ sortKey strptime b))).filter
      (fun t => !(hasTs strptime t))
  exact (hsub2.eq_of_length hperm.length_eq.symm).symm

/-- Entries of a sorted list read at non-decreasing positions have
non-decreasing keys. -/
theorem sorted_getD_mono (strptime : String → Option Int) {l : List Item}
    (h : l.Pairwise (fun a b => sortKey strptime a ≤ sortKey strptime b))
    {i j : Nat} (hij : i ≤ j) (hj : j < l.length) :
    sortKey strptime (l.getD i default) ≤ sortKey strptime (l.getD j default) := by
  rcases Nat.lt_or_ge i j with h' | h'
  · have hi : i < l.length := lt_trans h' hj
    rw [List.getD_eq_getElem?_getD, List.getElem?_eq_getElem hi, Option.getD_some,
        List.getD_eq_getElem?_getD, List.getElem?_eq_getElem hj, Option.getD_some]
    exact List.pairwise_iff_getElem.1 h i j hi hj h'
  · have hij' : i = j := le_antisymm hij h'
    subst hij'
    exact le_refl _

/-- In any run from a state whose tweet queue is key-sorted, tweet
dispatches occur in non-decreasing key order. -/
theorem run_events_sorted (strptime : String → Option Int) (tks : List Tick)
    (s : SchedState)
    (hsorted : s.tweet_queue.Pairwise
      (fun a b => sortKey strptime a ≤ sortKey strptime b)) :
    ((run s tks).2).Pairwise (fun e1 e2 =>
      e1.cls = .tweet → e2.cls = .tweet →
      sortKey strptime e1.item ≤ sortKey strptime e2.item) := by
  induction tks generalizing s with
  | nil => simp [run]
  | cons tk tks ih =>
      rw [run]
      apply List.pairwise_append.2
      refine ⟨?_, ?_, ?_⟩
      · rcases (runStep s tk).2 with _ | ev0 <;> simp
      · refine ih ((runStep s tk).1) ?_
        rwa [runStep_fst_tweet_queue]
      · intro a ha b hb hacls hbcls
        rcases hstep : (runStep s tk).2 with _ | ev0
        · rw [hstep] at ha; simp at ha
        · rw [hstep] at ha
          simp only [Option.toList_some, List.mem_singleton] at ha
          subst ha
          have hs : runStep s tk = ((runStep s tk).1, some a) := by rw [← hstep]
          obtain ⟨hc, hitem, -, -, -⟩ := runStep_some hs
          rw [hacls] at hc hitem
          obtain ⟨i, hi1, hi2, hi3⟩ := run_event_pos tks ((runStep s tk).1) b hb
          rw [hbcls] at hi1 hi2 hi3
          simp only [queueOf, idxOf] at hitem hi1 hi2 hi3
          rw [runStep_fst_tweet_queue] at hi2 hi3
          rw [hitem, hi3]
          exact sorted_getD_mono strptime hsorted
            (le_trans (runStep_fst_tweet_idx_le s tk) hi1) hi2

/-- A queue mixes the two key kinds when it holds at least one item whose
date parses (tz-aware key) and one whose date does not (the tz-naive
sentinel `datetime.min`). -/
def mixedDates (strptime : String → Option Int) (l : List Item) : Bool :=
  l.any (fun t => hasTs strptime t) && l.any (fun t => !(hasTs strptime t))

/-- The uncaught exception of the crash at line 184. -/
def pySortTypeError : String :=
  "TypeError: cannot compare offset-naive and offset-aware datetimes"

/-- `tweet_queue.sort(key=...)` at line 184, with its crash modelled.
CPython compares the key values pairwise; a comparison between a tz-aware
parsed date and the tz-naive sentinel `datetime.min` raises `TypeError`,
which no handler catches, so the sort (and the program) fails exactly on
queues mixing parseable and unparseable dates.  On single-kind queues
every comparison is defined — all keys tz-aware, or all equal to
`datetime.min` — and the stable sort succeeds; `sortKey` is the total
integer rendering of the key order that is valid on that branch. -/
def pySortByDate (strptime : String → Option Int) (l : List Item) :
    Except String (List Item) :=
  if mixedDates strptime l then .error pySortTypeError
  else .ok (l.mergeSort (fun a b => decide (sortKey strptime a ≤ sortKey strptime b)))

/-- Lines 174 and 184 with the crash modelled: filter the archive against
the whitelist and the ledger, then sort fallibly.  `build_tweet_queue` is
the value of the `.ok` branch. -/
def build_tweet_queue_checked (strptime : String → Option Int)
    (all_tweets : List Item) (whitelist dones : List String) :
    Except String (List Item) :=
  pySortByDate strptime
    (all_tweets.filter (fun t => !whitelist.contains t.id && !dones.contains t.id))

/-- When the fallible sort succeeds, its output is sorted by the key and
leaves the no-timestamp items in input order. -/
theorem pySortByDate_ok {strptime : String → Option Int} {l q : List Item}
    (h : pySortByDate strptime l = .ok q) :
    q.Pairwise (fun a b => sortKey strptime a ≤ sortKey strptime b) ∧
    q.filter (fun t => !(hasTs strptime t)) =
      l.filter (fun t => !(hasTs strptime t)) := by
  unfold pySortByDate at h
  by_cases hm : mixedDates strptime l = true
  · rw [if_pos hm] at h
    cases h
  · rw [if_neg hm] at h
    injection h with h'
    subst h'
    exact ⟨mergeSort_key_sorted strptime l, mergeSort_key_stable strptime l⟩

/-- When the fallible queue construction succeeds it yields exactly
`build_tweet_queue` (the arrangement `initState` carries). -/
theorem build_tweet_queue_checked_ok {strptime : String → Option Int}
    {all_tweets : List Item} {whitelist dones : List String} {q : List Item}
    (h : build_tweet_queue_checked strptime all_tweets whitelist dones = .ok q) :
    q = build_tweet_queue strptime all_tweets whitelist dones := by
  unfold build_tweet_queue_checked pySortByDate at h
  by_cases hm : mixedDates strptime
      (all_tweets.filter
        (fun t => !whitelist.contains t.id && !dones.contains t.id)) = true
  · rw [if_pos hm] at h
    cases h
  · rw [if_neg hm] at h
    injection h with h'
    exact h'.symm

/-- A tweet whose `created_at` parses: its key is a tz-aware datetime. -/
def datedTweet : Item := ⟨"301", "d", "Mon Jan 01 00:00:00 +0000 2020", .tweet⟩

/-- A tweet with an empty `created_at`: its key is the tz-naive sentinel
`datetime.min.replace(tzinfo=None)`. -/
def undatedTweet : Item := ⟨"302", "u", "", .tweet⟩

/-- A concrete `strptime` parsing exactly `datedTweet`'s date string. -/
def strptimeSample : String → Option Int :=
  fun d => if d = "Mon Jan 01 00:00:00 +0000 2020" then some 1577836800 else none

/-- C8 (code bug at line 184): at the failing input — a queue mixing a
parseable `created_at` (compared as a tz-aware datetime) with an empty one
(the tz-naive sentinel `datetime.min.replace(tzinfo=None)`) — the sort
raises an uncaught `TypeError` and the queue is never arranged, although
the `except` branch of `parse_date` (lines 178-182) exists precisely to
give unparseable dates a sort key, so the claim describes the clear
intent.  On queues that do not mix the two kinds the sort succeeds and the
claim's content holds: the queue is arranged oldest-first by parsed key,
items without a parseable timestamp keep stable input order, and tweet
dispatches from any state carrying such a queue occur in non-decreasing
parsed-timestamp order. -/
theorem C8_within_class_ordering :
    pySortByDate strptimeSample [datedTweet, undatedTweet] =
      .error pySortTypeError ∧
    hasTs strptimeSample datedTweet = true ∧
    hasTs strptimeSample undatedTweet = false ∧
    (∀ (strptime : String → Option Int) (l q : List Item),
        pySortByDate strptime l = .ok q →
        q.Pairwise (fun a b => sortKey strptime a ≤ sortKey strptime b) ∧
        q.filter (fun t => !(hasTs strptime t)) =
          l.filter (fun t => !(hasTs strptime t))) ∧
    (∀ (strptime : String → Option Int) (l : List Item) (s : SchedState)
        (tks : List Tick),
        pySortByDate strptime l = .ok s.tweet_queue →
        ((run s tks).2).Pairwise (fun e1 e2 =>
          e1.cls = .tweet → e2.cls = .tweet →
          ∀ ta tb : Int, e1.item.date ≠ "" → e2.item.date ≠ "" →
            strptime e1.item.date = some ta → strptime e2.item.date = some tb →
            ta ≤ tb)) := by
  refine ⟨rfl, rfl, rfl, ?_, ?_⟩
  · intro strptime l q h
    exact pySortByDate_ok h
  · intro strptime l s tks h
    have hsorted := (pySortByDate_ok h).1
    have hp := run_events_sorted strptime tks s hsorted
    refine hp.imp ?_
    intro e1 e2 h12 h1 h2 ta tb hd1 hd2 hp1 hp2
    have hk := h12 h1 h2
    rwa [sortKey_of_parsed hd1 hp1, sortKey_of_parsed hd2 hp2] at hk

/-! ## C5 — fairness and bounded alternation -/

/-- Strict clock: each tick starts no earlier than the previous post-call
time, and each executor call takes nonzero time. -/
def ticksStrict : Int → List Tick → Bool
  | _, [] => true
  | lb, tk :: tks =>
      decide (lb ≤ tk.now) && decide (tk.now < tk.now2) && ticksStrict tk.now2 tks

/-- A tick whose remote call yields a `'done'` classification. -/
def doneTick (tk : Tick) : Bool :=
  match tk.api with
  | .ok => true
  | .notFound => true
  | .forbidden => true
  | _ => false

/-- All ticks succeed. -/
def allDone (tks : List Tick) : Bool :=
  tks.all doneTick

theorem do_action_done {tk : Tick} (h : doneTick tk = true) :
    (do_action tk.api).1 = .done := by
  unfold doneTick at h
  rcases htk : tk.api with _ | _ | _ | _ | _ <;> rw [htk] at h
  · rfl
  · rfl
  · rfl
  · cases h
  · cases h

theorem ticksStrict_now_ge {lb : Int} {tks : List Tick} {tk : Tick}
    (hs : ticksStrict lb tks = true) (hm : tk ∈ tks) : lb ≤ tk.now := by
  induction tks generalizing lb with
  | nil => cases hm
  | cons tk0 tks ih =>
      simp only [ticksStrict, Bool.and_eq_true, decide_eq_true_eq] at hs
      obtain ⟨⟨h1, h2⟩, h3⟩ := hs
      rcases List.mem_cons.1 hm with rfl | hm'
      · exact h1
      · exact le_trans (le_trans h1 (le_of_lt h2)) (ih h3 hm')

/-- A tick that dispatches nothing leaves the state untouched. -/
theorem runStep_none_state {s : SchedState} {tk : Tick}
    (h : (runStep s tk).2 = none) : (runStep s tk).1 = s := by
  rcases hc : chooseAction s tk.now with _ | cls
  · rw [runStep_none hc]
  · cases cls
    · rw [runStep_tweet hc] at h
      simp at h
    · rw [runStep_like hc] at h
      simp at h

/-- The first dispatched event of a run comes from `runStep` applied to the
starting state (non-dispatching ticks do not change the state). -/
theorem run_head_event (tks : List Tick) (s : SchedState) :
    ∀ y ∈ ((run s tks).2).head?,
      ∃ tk ∈ tks, runStep s tk = ((runStep s tk).1, some y) := by
  induction tks generalizing s with
  | nil => intro y hy; simp [run] at hy
  | cons tk tks ih =>
      intro y hy
      rw [run] at hy
      rcases hstep : (runStep s tk).2 with _ | ev0
      · rw [hstep] at hy
        simp only [Option.toList_none, List.nil_append] at hy
        rw [runStep_none_state hstep] at hy
        obtain ⟨tk', htk', h'⟩ := ih s y hy
        exact ⟨tk', List.mem_cons_of_mem tk htk', h'⟩
      · rw [hstep] at hy
        simp only [Option.toList_some, List.singleton_append, List.head?_cons,
          Option.mem_def, Option.some.injEq] at hy
        subst hy
        refine ⟨tk, List.mem_cons_self tk tks, ?_⟩
        have heta : runStep s tk = ((runStep s tk).1, (runStep s tk).2) := rfl
        rw [hstep] at heta
        exact heta

theorem can_tweet_intro {s : SchedState} {now : Int}
    (h1 : s.tweet_idx < s.tweet_queue.length) (h2 : s.tweet_reset_time ≤ now)
    (h3 : DELAY_BETWEEN_SAME_TYPE ≤ now - s.last_tweet_time) :
    can_tweet s now = true := by
  unfold can_tweet tweet_rate_limited
  rw [decide_eq_true h1, decide_eq_true h3, decide_eq_false (not_lt.2 h2)]
  rfl

theorem can_like_intro {s : SchedState} {now : Int}
    (h1 : s.like_idx < s.like_queue.length) (h2 : s.like_reset_time ≤ now)
    (h3 : DELAY_BETWEEN_SAME_TYPE ≤ now - s.last_like_time) :
    can_like s now = true := by
  unfold can_like like_rate_limited
  rw [decide_eq_true h1, decide_eq_true h3, decide_eq_false (not_lt.2 h2)]
  rfl

/-- With both classes ready and the tweet class's last action not later,
the tie-break picks the tweet (removal before unlike). -/
theorem chooseAction_both_tweet {s : SchedState} {now : Int}
    (ht : can_tweet s now = true) (hl : can_like s now = true)
    (h : s.last_tweet_time ≤ s.last_like_time) :
    chooseAction s now = some .tweet := by
  unfold chooseAction
  rw [if_pos ⟨ht, hl⟩, if_pos h]

/-- With both classes ready and the like class's last action strictly
older... the like is picked exactly when the tweet's last action is more
recent. -/
theorem chooseAction_both_like {s : SchedState} {now : Int}
    (ht : can_tweet s now = true) (hl : can_like s now = true)
    (h : ¬ s.last_tweet_time ≤ s.last_like_time) :
    chooseAction s now = some .like := by
  unfold chooseAction
  rw [if_pos ⟨ht, hl⟩, if_neg h]

/-- From a state where the tweet class acted strictly more recently than
the like class, with the like class unthrottled and its queue never
exhausted, the next dispatched event (if any) is a like. -/
theorem next_choice_not_tweet (s' : SchedState) (tks : List Tick) (lb' : Int)
    (hstrict : ticksStrict lb' tks = true)
    (hlast : s'.last_like_time < s'.last_tweet_time)
    (hlrt : s'.like_reset_time ≤ lb')
    (hq : ((run s' tks).1).like_idx < s'.like_queue.length) :
    ∀ y ∈ ((run s' tks).2).head?, y.cls = .like := by
  intro y hy
  obtain ⟨tk', htk', hstep'⟩ := run_head_event tks s' y hy
  obtain ⟨hc', -, -, -, -⟩ := runStep_some hstep'
  rcases hycls : y.cls with _ | _
  · exfalso
    rw [hycls] at hc'
    have hct := chooseAction_can_tweet hc'
    have hnow_ge : lb' ≤ tk'.now := ticksStrict_now_ge hstrict htk'
    have hidx : s'.like_idx < s'.like_queue.length :=
      lt_of_le_of_lt (run_fst_like_idx_le tks s') hq
    have hsp : (3 : Int) ≤ tk'.now - s'.last_tweet_time := can_tweet_spacing hct
    have hcl : can_like s' tk'.now = true :=
      can_like_intro hidx (le_trans hlrt hnow_ge)
        (show (3 : Int) ≤ tk'.now - s'.last_like_time by omega)
    have hch := chooseAction_both_like hct hcl (not_le.2 hlast)
    rw [hc'] at hch
    injection hch with hx
    cases hx
  · rfl

/-- Symmetric: after the like class acted strictly more recently, the next
dispatched event (if any) is a tweet. -/
theorem next_choice_not_like (s' : SchedState) (tks : List Tick) (lb' : Int)
    (hstrict : ticksStrict lb' tks = true)
    (hlast : s'.last_tweet_time < s'.last_like_time)
    (htrt : s'.tweet_reset_time ≤ lb')
    (hq : ((run s' tks).1).tweet_idx < s'.tweet_queue.length) :
    ∀ y ∈ ((run s' tks).2).head?, y.cls = .tweet := by
  intro y hy
  obtain ⟨tk', htk', hstep'⟩ := run_head_event tks s' y hy
  obtain ⟨hc', -, -, -, -⟩ := runStep_some hstep'
  rcases hycls : y.cls with _ | _
  · rfl
  · exfalso
    rw [hycls] at hc'
    have hcl := chooseAction_can_like hc'
    have hnow_ge : lb' ≤ tk'.now := ticksStrict_now_ge hstrict htk'
    have hidx : s'.tweet_idx < s'.tweet_queue.length :=
      lt_of_le_of_lt (run_fst_tweet_idx_le tks s') hq
    have hsp : (3 : Int) ≤ tk'.now - s'.last_like_time := can_like_spacing hcl
    have hct : can_tweet s' tk'.now = true :=
      can_tweet_intro hidx (le_trans htrt hnow_ge)
        (show (3 : Int) ≤ tk'.now - s'.last_tweet_time by omega)
    have hch := chooseAction_both_tweet hct hcl (le_of_lt hlast)
    rw [hc'] at hch
    injection hch with hx
    cases hx

/-- Bounded alternation for successful runs: under a strict clock, with
neither class initially throttled and both queues never exhausted, a run
all of whose dispatch outcomes are `'done'` never dispatches the same class
twice in a row. -/
theorem alternation_aux : ∀ (tks : List Tick) (s : SchedState) (lb : Int),
    ticksStrict lb tks = true → allDone tks = true →
    s.tweet_reset_time ≤ lb → s.like_reset_time ≤ lb →
    s.last_tweet_time ≤ lb → s.last_like_time ≤ lb →
    ((run s tks).1).tweet_idx < s.tweet_queue.length →
    ((run s tks).1).like_idx < s.like_queue.length →
    ((run s tks).2).Chain' (fun e1 e2 => e1.cls ≠ e2.cls)
  | [], s, lb, _, _, _, _, _, _, _, _ => by simp [run]
  | tk :: tks, s, lb, hstrict, hdone, hrt, hrl, hlt, hll, hneT, hneL => by
      simp only [ticksStrict, Bool.and_eq_true, decide_eq_true_eq] at hstrict
      obtain ⟨⟨hlbn, hnlt⟩, hstrict'⟩ := hstrict
      simp only [allDone, List.all_cons, Bool.and_eq_true] at hdone
      obtain ⟨hd1, hdone'⟩ := hdone
      have hlb2 : lb ≤ tk.now2 := le_trans hlbn (le_of_lt hnlt)
      rw [run] at hneT hneL ⊢
      rcases hc : chooseAction s tk.now with _ | cls
      · rw [runStep_none hc] at hneT hneL ⊢
        exact alternation_aux tks s tk.now2 hstrict' hdone'
          (le_trans hrt hlb2) (le_trans hrl hlb2)
          (le_trans hlt hlb2) (le_trans hll hlb2) hneT hneL
      · have hda : (do_action tk.api).1 = Status.done := do_action_done hd1
        cases cls
        · have hs' : (runStep s tk).1 =
              { s with
                tweets_progress :=
                  s.tweets_progress ++ [(s.tweet_queue.getD s.tweet_idx default).id],
                tweets_deleted := s.tweets_deleted + 1,
                tweet_idx := s.tweet_idx + 1,
                last_tweet_time := tk.now2 } := by
            rw [runStep_tweet hc, hda, applyOutcome_tweet_done]
          have hev : (runStep s tk).2 =
              some ⟨.tweet, s.tweet_queue.getD s.tweet_idx default, tk.now,
                    Status.done⟩ := by
            rw [runStep_tweet hc, hda]
          rw [hs'] at hneT hneL
          rw [hev, hs']
          simp only [Option.toList_some, List.singleton_append]
          rw [List.chain'_cons']
          constructor
          · intro y hy
            have hyl := next_choice_not_tweet
              { s with
                tweets_progress :=
                  s.tweets_progress ++ [(s.tweet_queue.getD s.tweet_idx default).id],
                tweets_deleted := s.tweets_deleted + 1,
                tweet_idx := s.tweet_idx + 1,
                last_tweet_time := tk.now2 }
              tks tk.now2 hstrict'
              (show s.last_like_time < tk.now2 by omega)
              (show s.like_reset_time ≤ tk.now2 by omega)
              hneL y hy
            rw [hyl]
            simp
          · exact alternation_aux tks
              { s with
                tweets_progress :=
                  s.tweets_progress ++ [(s.tweet_queue.getD s.tweet_idx default).id],
                tweets_deleted := s.tweets_deleted + 1,
                tweet_idx := s.tweet_idx + 1,
                last_tweet_time := tk.now2 }
              tk.now2 hstrict' hdone'
              (show s.tweet_reset_time ≤ tk.now2 by omega)
              (show s.like_reset_time ≤ tk.now2 by omega)
              (show tk.now2 ≤ tk.now2 from le_refl _)
              (show s.last_like_time ≤ tk.now2 by omega)
              hneT hneL
        · have hs' : (runStep s tk).1 =
              { s with
                likes_progress :=
                  s.likes_progress ++ [(s.like_queue.getD s.like_idx default).id],
                likes_deleted := s.likes_deleted + 1,
                like_idx := s.like_idx + 1,
                last_like_time := tk.now2 } := by
            rw [runStep_like hc, hda, applyOutcome_like_done]
          have hev : (runStep s tk).2 =
              some ⟨.like, s.like_queue.getD s.like_idx default, tk.now,
                    Status.done⟩ := by
            rw [runStep_like hc, hda]
          rw [hs'] at hneT hneL
          rw [hev, hs']
          simp only [Option.toList_some, List.singleton_append]
          rw [List.chain'_cons']
          constructor
          · intro y hy
            have hyl := next_choice_not_like
              { s with
                likes_progress :=
                  s.likes_progress ++ [(s.like_queue.getD s.like_idx default).id],
                likes_deleted := s.likes_deleted + 1,
                like_idx := s.like_idx + 1,
                last_like_time := tk.now2 }
              tks tk.now2 hstrict'
              (show s.last_tweet_time < tk.now2 by omega)
              (show s.tweet_reset_time ≤ tk.now2 by omega)
              hneT y hy
            rw [hyl]
            simp
          · exact alternation_aux tks
              { s with
                likes_progress :=
                  s.likes_progress ++ [(s.like_queue.getD s.like_idx default).id],
                likes_deleted := s.likes_deleted + 1,
                like_idx := s.like_idx + 1,
                last_like_time := tk.now2 }
              tk.now2 hstrict' hdone'
              (show s.tweet_reset_time ≤ tk.now2 by omega)
              (show s.like_reset_time ≤ tk.now2 by omega)
              (show s.last_tweet_time ≤ tk.now2 by omega)
              (show tk.now2 ≤ tk.now2 from le_refl _)
              hneT hneL

/-- C5, counterexample: starting fresh with two tweets and one like queued,
two consecutive ticks return `'error'`.  Both dispatches go to the tweet
class (the error outcome does not update `last_tweet_time`, so the tweet
class wins the tie again), with the like class eligible at both ticks,
neither class ever throttled, and both queues non-empty throughout — two
extra tweet actions are dispatched before any like, refuting bounded
alternation over arbitrary outcome sequences. -/
theorem C5_counterexample :
    ((run sampleState [⟨10, .otherError, 11⟩, ⟨12, .otherError, 13⟩]).2).map
        Event.cls = [.tweet, .tweet] ∧
    can_like sampleState 10 = true ∧
    can_like ({ sampleState with tweet_idx := 1 }) 12 = true ∧
    ((run sampleState [⟨10, .otherError, 11⟩, ⟨12, .otherError, 13⟩]).1).tweet_reset_time
      = 0 ∧
    ((run sampleState [⟨10, .otherError, 11⟩, ⟨12, .otherError, 13⟩]).1).like_reset_time
      = 0 ∧
    sampleState.tweet_idx < sampleState.tweet_queue.length ∧
    sampleState.like_idx < sampleState.like_queue.length ∧
    ({ sampleState with tweet_idx := 1 } : SchedState).tweet_idx <
      sampleState.tweet_queue.length := by
  refine ⟨by decide, by decide, by decide, by decide, by decide, by decide,
    by decide, by decide⟩

/-- C5: at every tick where both classes are eligible, the scheduler
chooses the class whose last-attempt time is older, ties broken in favour
of the tweet (removal) class; and — amended — for runs all of whose
dispatch outcomes are terminal-success, under a strictly advancing clock,
with neither class initially throttled and both queues remaining
non-empty, no two consecutive dispatches are of the same class.  The
restriction to successful outcomes is forced by `C5_counterexample`: an
`'error'` outcome leaves `lastAttemptAt` unchanged, letting one class
dispatch arbitrarily many times in a row. -/
theorem C5_fairness (s : SchedState) (lb : Int) (tks : List Tick)
    (hstrict : ticksStrict lb tks = true) (hdone : allDone tks = true)
    (hrt : s.tweet_reset_time ≤ lb) (hrl : s.like_reset_time ≤ lb)
    (hlt : s.last_tweet_time ≤ lb) (hll : s.last_like_time ≤ lb)
    (hneT : ((run s tks).1).tweet_idx < s.tweet_queue.length)
    (hneL : ((run s tks).1).like_idx < s.like_queue.length) :
    (∀ (x : SchedState) (n : Int), can_tweet x n = true → can_like x n = true →
      ((x.last_tweet_time ≤ x.last_like_time → chooseAction x n = some .tweet) ∧
       (x.last_like_time < x.last_tweet_time → chooseAction x n = some .like))) ∧
    ((run s tks).2).Chain' (fun e1 e2 => e1.cls ≠ e2.cls) := by
  refine ⟨?_, alternation_aux tks s lb hstrict hdone hrt hrl hlt hll hneT hneL⟩
  intro x n hct hcl
  exact ⟨fun h => chooseAction_both_tweet hct hcl h,
         fun h => chooseAction_both_like hct hcl (not_le.2 h)⟩

/-- C5 witness: a one-tick successful run from the fresh sample state. -/
theorem C5_fairness_witness :
    (∀ (x : SchedState) (n : Int), can_tweet x n = true → can_like x n = true →
      ((x.last_tweet_time ≤ x.last_like_time → chooseAction x n = some .tweet) ∧
       (x.last_like_time < x.last_tweet_time → chooseAction x n = some .like))) ∧
    ((run sampleState [⟨3, .ok, 4⟩]).2).Chain' (fun e1 e2 => e1.cls ≠ e2.cls) :=
  C5_fairness sampleState 0 [⟨3, .ok, 4⟩] (by decide) (by decide) (by decide)
    (by decide) (by decide) (by decide) (by decide) (by decide)

/-! ## C9 — throttle-window monotonicity -/

/-- A sane executor response: the post-call time is not before the decision
time, and a reported reset instant is not in the past. -/
def goodTick (tk : Tick) : Bool :=
  decide (tk.now ≤ tk.now2) &&
  (match tk.api with
   | .tooManyRequests (some r) => decide (tk.now ≤ r)
   | _ => true)

/-- All ticks of a run are sane. -/
def goodTicks (tks : List Tick) : Bool :=
  tks.all goodTick

/-- Under a sane tick, neither class's reset time decreases in one step:
an update only happens on a rate-limited dispatch, which requires
`reset ≤ now`, and writes either the reported `r ≥ now` or `now2 + 900`. -/
theorem runStep_reset_mono (s : SchedState) (tk : Tick)
    (hgood : goodTick tk = true) :
    s.tweet_reset_time ≤ ((runStep s tk).1).tweet_reset_time ∧
    s.like_reset_time ≤ ((runStep s tk).1).like_reset_time := by
  simp only [goodTick, Bool.and_eq_true, decide_eq_true_eq] at hgood
  obtain ⟨hnn2, hrep⟩ := hgood
  rcases hc : chooseAction s tk.now with _ | cls
  · rw [runStep_none hc]
    exact ⟨le_refl _, le_refl _⟩
  · cases cls
    · rw [runStep_tweet hc]
      have hres := can_tweet_not_limited (chooseAction_can_tweet hc)
      constructor
      · cases hapi : tk.api with
        | ok => exact le_of_eq rfl
        | notFound => exact le_of_eq rfl
        | forbidden => exact le_of_eq rfl
        | otherError => exact le_of_eq rfl
        | tooManyRequests ro =>
            cases ro with
            | some r =>
                rw [hapi] at hrep
                simp only [decide_eq_true_eq] at hrep
                by_cases hr : r = 0
                · subst hr
                  show s.tweet_reset_time ≤ tk.now2 + 900
                  omega
                · show s.tweet_reset_time ≤
                    (applyOutcome .tweet (s.tweet_queue.getD s.tweet_idx default)
                      .rate_limit (some r) tk.now2 s).tweet_reset_time
                  rw [applyOutcome_tweet_rl]
                  show s.tweet_reset_time ≤ if r ≠ 0 then r else tk.now2 + 900
                  rw [if_pos hr]
                  exact le_trans hres hrep
            | none =>
                show s.tweet_reset_time ≤ tk.now2 + 900
                omega
      · rw [applyOutcome_tweet_like_reset]
    · rw [runStep_like hc]
      have hres := can_like_not_limited (chooseAction_can_like hc)
      constructor
      · rw [applyOutcome_like_tweet_reset]
      · cases hapi : tk.api with
        | ok => exact le_of_eq rfl
        | notFound => exact le_of_eq rfl
        | forbidden => exact le_of_eq rfl
        | otherError => exact le_of_eq rfl
        | tooManyRequests ro =>
            cases ro with
            | some r =>
                rw [hapi] at hrep
                simp only [decide_eq_true_eq] at hrep
                by_cases hr : r = 0
                · subst hr
                  show s.like_reset_time ≤ tk.now2 + 900
                  omega
                · show s.like_reset_time ≤
                    (applyOutcome .like (s.like_queue.getD s.like_idx default)
                      .rate_limit (some r) tk.now2 s).like_reset_time
                  rw [applyOutcome_like_rl]
                  show s.like_reset_time ≤ if r ≠ 0 then r else tk.now2 + 900
                  rw [if_pos hr]
                  exact le_trans hres hrep
            | none =>
                show s.like_reset_time ≤ tk.now2 + 900
                omega

/-- Reset times never decrease over a whole sane run. -/
theorem run_reset_mono (tks : List Tick) (s : SchedState)
    (hgood : goodTicks tks = true) :
    s.tweet_reset_time ≤ ((run s tks).1).tweet_reset_time ∧
    s.like_reset_time ≤ ((run s tks).1).like_reset_time := by
  induction tks generalizing s with
  | nil => exact ⟨le_refl _, le_refl _⟩
  | cons tk tks ih =>
      simp only [goodTicks, List.all_cons, Bool.and_eq_true] at hgood
      have hstep := runStep_reset_mono s tk hgood.1
      have hrest := ih ((runStep s tk).1) (by simp [goodTicks, hgood.2])
      rw [run]
      exact ⟨le_trans hstep.1 hrest.1, le_trans hstep.2 hrest.2⟩

/-- C9, counterexample: starting fresh, a first tweet dispatch at `now = 3`
is rate limited with reported reset 100; a second tweet dispatch at
`now = 100` (the class is no longer throttled) is rate limited with a
*past* reported reset 50, and the unconditional assignment
`tweet_reset_time = reset_ts` moves `throttledUntil` backwards from 100 to
50 — with no successful attempt anywhere in the run. -/
theorem C9_counterexample :
    ((run sampleState [⟨3, .tooManyRequests (some 100), 4⟩]).1).tweet_reset_time
      = 100 ∧
    ((run sampleState [⟨3, .tooManyRequests (some 100), 4⟩,
        ⟨100, .tooManyRequests (some 50), 101⟩]).1).tweet_reset_time = 50 ∧
    ((run sampleState [⟨3, .tooManyRequests (some 100), 4⟩,
        ⟨100, .tooManyRequests (some 50), 101⟩]).2).map Event.result =
      [.rate_limit, .rate_limit] ∧
    ¬ (100 : Int) ≤ 50 := by
  refine ⟨by decide, by decide, by decide, by decide⟩

/-- C9, amended: provided every executor report is sane (the post-call time
is not before the decision time, and any reported reset instant is not in
the past), each class's `throttledUntil` is monotonically non-decreasing
across every state update of the run (the code never clears it; a success
leaves it untouched).  Without that proviso the unconditional assignment
can move it backwards, as `C9_counterexample` shows. -/
theorem C9_throttle_monotone (s : SchedState) (tks1 tks2 : List Tick)
    (hgood : goodTicks (tks1 ++ tks2) = true) :
    ((run s tks1).1).tweet_reset_time ≤
      ((run s (tks1 ++ tks2)).1).tweet_reset_time ∧
    ((run s tks1).1).like_reset_time ≤
      ((run s (tks1 ++ tks2)).1).like_reset_time := by
  rw [run_append]
  refine run_reset_mono tks2 ((run s tks1).1) ?_
  simp only [goodTicks, List.all_append, Bool.and_eq_true] at hgood
  exact hgood.2

/-- C9 witness: the monotone bound on a concrete sane two-tick run (first a
rate limit with a future reset, then a success). -/
theorem C9_throttle_monotone_witness :
    ((run sampleState [⟨3, .tooManyRequests (some 100), 4⟩]).1).tweet_reset_time ≤
      ((run sampleState ([⟨3, .tooManyRequests (some 100), 4⟩] ++
        [⟨100, .ok, 101⟩])).1).tweet_reset_time ∧
    ((run sampleState [⟨3, .tooManyRequests (some 100), 4⟩]).1).like_reset_time ≤
      ((run sampleState ([⟨3, .tooManyRequests (some 100), 4⟩] ++
        [⟨100, .ok, 101⟩])).1).like_reset_time :=
  C9_throttle_monotone sampleState [⟨3, .tooManyRequests (some 100), 4⟩]
    [⟨100, .ok, 101⟩] (by decide)

/-! ## C4 — terminal-success transition -/

/-- C4: for every dispatch whose outcome is `'done'` — which `do_action`
returns alike for success, `NotFound` (already gone) and `Forbidden` — the
item's id is appended (`save_id`) to the class's ledger, the cursor advances
by one, the last-attempt time becomes the post-call time, the reset time
(`throttledUntil`) is untouched, and in the ordered list of mutations the
ledger append strictly precedes the cursor advance. -/
theorem C4_terminal_success (s : SchedState) (tk : Tick) (s' : SchedState)
    (ev : Event) (h : runStep s tk = (s', some ev)) (hr : ev.result = .done) :
    ledgerOf ev.cls s' = save_id (ledgerOf ev.cls s) ev.item.id ∧
    idxOf ev.cls s' = idxOf ev.cls s + 1 ∧
    lastOf ev.cls s' = tk.now2 ∧
    resetOf ev.cls s' = resetOf ev.cls s ∧
    do_action .notFound = do_action .ok ∧
    do_action .forbidden = do_action .ok ∧
    ∃ pre mid post : List MicroOp,
      outcomeOps ev.cls ev.item .done (do_action tk.api).2 tk.now2 =
        pre ++ [.appendLedger ev.cls ev.item.id] ++ mid ++
          [.advanceCursor ev.cls] ++ post := by
  obtain ⟨-, -, -, hres, hs'⟩ := runStep_some h
  have hda : (do_action tk.api).1 = .done := hres.symm.trans hr
  rw [hda] at hs'
  cases hcl : ev.cls <;> rw [hcl] at hs' <;> subst hs' <;>
    exact ⟨rfl, rfl, rfl, rfl, rfl, rfl,
           [], [.incCounter _], [.setLastAttempt _ tk.now2], rfl⟩

/-- C4 witness: a successful tweet dispatch at a concrete state. -/
theorem C4_terminal_success_witness :
    ledgerOf ActionClass.tweet
        ({ sampleState with tweets_progress := ["101"], tweets_deleted := 1,
                            tweet_idx := 1, last_tweet_time := 11 }) =
      save_id (ledgerOf ActionClass.tweet sampleState) sampleTweetA.id ∧
    idxOf ActionClass.tweet
        ({ sampleState with tweets_progress := ["101"], tweets_deleted := 1,
                            tweet_idx := 1, last_tweet_time := 11 }) =
      idxOf ActionClass.tweet sampleState + 1 ∧
    lastOf ActionClass.tweet
        ({ sampleState with tweets_progress := ["101"], tweets_deleted := 1,
                            tweet_idx := 1, last_tweet_time := 11 }) = 11 ∧
    resetOf ActionClass.tweet
        ({ sampleState with tweets_progress := ["101"], tweets_deleted := 1,
                            tweet_idx := 1, last_tweet_time := 11 }) =
      resetOf ActionClass.tweet sampleState ∧
    do_action .notFound = do_action .ok ∧
    do_action .forbidden = do_action .ok ∧
    ∃ pre mid post : List MicroOp,
      outcomeOps ActionClass.tweet sampleTweetA .done (do_action .ok).2 11 =
        pre ++ [.appendLedger ActionClass.tweet sampleTweetA.id] ++ mid ++
          [.advanceCursor ActionClass.tweet] ++ post :=
  C4_terminal_success sampleState ⟨10, .ok, 11⟩
    ({ sampleState with tweets_progress := ["101"], tweets_deleted := 1,
                        tweet_idx := 1, last_tweet_time := 11 })
    ⟨.tweet, sampleTweetA, 10, .done⟩ (by decide) rfl

/-! ## C6 — unrecoverable-error skip -/

/-- C6: for every dispatch whose outcome is `'error'`, the class's cursor is
advanced past the item exactly once, neither ledger is written, the
last-attempt and reset times are untouched, and the next dispatch of the
same class (whenever it happens) is the item directly after the skipped one
— the error does not block the class's queue. -/
theorem C6_error_skip (s : SchedState) (tk : Tick) (s' : SchedState) (ev : Event)
    (h : runStep s tk = (s', some ev)) (hr : ev.result = .error) :
    idxOf ev.cls s' = idxOf ev.cls s + 1 ∧
    s'.tweets_progress = s.tweets_progress ∧
    s'.likes_progress = s.likes_progress ∧
    lastOf ev.cls s' = lastOf ev.cls s ∧
    resetOf ev.cls s' = resetOf ev.cls s ∧
    (∀ (tk' : Tick) (s'' : SchedState) (ev' : Event),
        runStep s' tk' = (s'', some ev') → ev'.cls = ev.cls →
        ev'.item = (queueOf ev.cls s).getD (idxOf ev.cls s + 1) default) := by
  obtain ⟨-, -, -, hres, hs'⟩ := runStep_some h
  have hda : (do_action tk.api).1 = .error := hres.symm.trans hr
  rw [hda] at hs'
  cases hcl : ev.cls <;> rw [hcl] at hs' <;> subst hs'
  · refine ⟨rfl, rfl, rfl, rfl, rfl, ?_⟩
    intro tk' s'' ev' h' hcl'
    obtain ⟨-, hitem', -, -, -⟩ := runStep_some h'
    rw [hcl'] at hitem'
    exact hitem'
  · refine ⟨rfl, rfl, rfl, rfl, rfl, ?_⟩
    intro tk' s'' ev' h' hcl'
    obtain ⟨-, hitem', -, -, -⟩ := runStep_some h'
    rw [hcl'] at hitem'
    exact hitem'

/-- C6 witness: a failing tweet dispatch at a concrete state. -/
theorem C6_error_skip_witness :
    idxOf ActionClass.tweet ({ sampleState with tweet_idx := 1 }) =
      idxOf ActionClass.tweet sampleState + 1 ∧
    ({ sampleState with tweet_idx := 1 } : SchedState).tweets_progress =
      sampleState.tweets_progress ∧
    ({ sampleState with tweet_idx := 1 } : SchedState).likes_progress =
      sampleState.likes_progress ∧
    lastOf ActionClass.tweet ({ sampleState with tweet_idx := 1 }) =
      lastOf ActionClass.tweet sampleState ∧
    resetOf ActionClass.tweet ({ sampleState with tweet_idx := 1 }) =
      resetOf ActionClass.tweet sampleState ∧
    (∀ (tk' : Tick) (s'' : SchedState) (ev' : Event),
        runStep ({ sampleState with tweet_idx := 1 }) tk' = (s'', some ev') →
        ev'.cls = ActionClass.tweet →
        ev'.item = (queueOf ActionClass.tweet sampleState).getD
          (idxOf ActionClass.tweet sampleState + 1) default) :=
  C6_error_skip sampleState ⟨10, .otherError, 11⟩
    ({ sampleState with tweet_idx := 1 })
    ⟨.tweet, sampleTweetA, 10, .error⟩ (by decide) rfl

/-! ## C7 — bounded suspension -/

/-- C7, counterexample: with both classes throttled until instant 1000, at
the tick at `now = 10` no class is eligible and the loop's sleep is
`min(1000,1000) - 10 + 1 = 991` seconds — far above the 5-second cap the
claim asserts for every wait, refuting "the time the scheduler sleeps before
re-evaluating eligibility is at most the bounded poll interval". -/
theorem C7_counterexample :
    chooseAction throttledState 10 = none ∧
    waitDuration throttledState 10 = 991 ∧
    ¬ waitDuration throttledState 10 ≤ 5 :=
  ⟨by decide, by decide, by decide⟩

/-- C7, amended: at a tick where no class is eligible, the sleep is at most
the 5-second poll cap provided no class is currently rate-limit-throttled
(the pure pacing wait is capped by `min(wait, 5)`); a rate-limit wait
instead sleeps until the relevant reset instant plus one second, so in
general the sleep is only bounded by `max 5 (reset - now + 1)` over the two
classes, not by the poll cap. -/
theorem C7_bounded_wait (s : SchedState) (now : Int)
    (_hn : chooseAction s now = none) :
    (tweet_rate_limited s now = false → like_rate_limited s now = false →
       waitDuration s now ≤ 5) ∧
    waitDuration s now ≤
      max 5 (max (s.tweet_reset_time - now + 1) (s.like_reset_time - now + 1)) := by
  constructor
  · intro h1 h2
    unfold waitDuration
    rw [h1, h2]
    simp only [Bool.and_false, Bool.false_and, Bool.and_true, if_false,
      Bool.false_eq_true]
    split_ifs <;> simp [min_le_right]
  · simp only [waitDuration]
    split_ifs <;> omega

/-- `sampleState` one second after both classes acted: neither class is
eligible, purely because of pacing. -/
def pacingState : SchedState :=
  { sampleState with last_tweet_time := 9, last_like_time := 9 }

/-- C7 witness: a state where neither class is eligible (pacing only, no
throttle), instantiating the amended bound. -/
theorem C7_bounded_wait_witness :
    (tweet_rate_limited pacingState 10 = false →
     like_rate_limited pacingState 10 = false →
     waitDuration pacingState 10 ≤ 5) ∧
    waitDuration pacingState 10 ≤
      max 5 (max (pacingState.tweet_reset_time - 10 + 1)
        (pacingState.like_reset_time - 10 + 1)) :=
  C7_bounded_wait pacingState 10 (by decide)

end TwatCleaner
